import Mathlib

/-!
Shallow embedding of the GD Farms REST backend (Express + PostgreSQL).

The database is modelled as lists of rows (the `items`, `goals` and
`user_settings` tables); each HTTP route handler becomes a pure function
from a database state (plus its request parameters and a timestamp /
fresh identifier supplied by the environment) to a result and a new state.
Numeric columns are modelled as rationals, timestamps as naturals, and
SQL `ORDER BY ... DESC` as a stable merge sort with a boolean comparator,
matching the stable sort semantics of the JavaScript runtime used for the
in-memory `topItems` ranking.
-/

namespace GDFarms

/-- A row of the `items` table. -/
structure ItemRow where
  id : Nat
  user_id : String
  name : String
  category : String
  quantity_value : ℚ
  quantity_unit : String
  buying_price : ℚ
  selling_price : ℚ
  description : String
  created_at : Nat
  updated_at : Option Nat
deriving DecidableEq

/-- A row of the `goals` table. -/
structure GoalRow where
  id : Nat
  user_id : String
  name : String
  target_revenue : ℚ
  target_profit : ℚ
  target_items : ℚ
  deadline : String
  description : String
  created_at : Nat
deriving DecidableEq

/-- A row of the `user_settings` table.  Columns other than `user_id` are
inserted with their defaults on user creation, modelled as `Option`. -/
structure SettingsRow where
  user_id : String
  currency : Option String
  app_name : Option String
  unit_preferences : Option String
  updated_at : Option Nat
deriving DecidableEq

/-- The database state: the three tables plus the serial-id counters. -/
@[ext]
structure DB where
  items : List ItemRow
  goals : List GoalRow
  settings : List SettingsRow
  nextItemId : Nat
  nextGoalId : Nat
deriving DecidableEq

/-- The caller-supplied fields of a `POST /api/items` or `PUT /api/items/:id`
request body. -/
structure ItemFields where
  name : String
  category : String
  quantity_value : ℚ
  quantity_unit : String
  buying_price : ℚ
  selling_price : ℚ
  description : String
deriving DecidableEq

/-- The caller-supplied fields of a `POST /api/goals` request body. -/
structure GoalFields where
  name : String
  target_revenue : ℚ
  target_profit : ℚ
  target_items : ℚ
  deadline : String
  description : String
deriving DecidableEq

/-- `SELECT * FROM user_settings WHERE user_id = $1` returned at least one
row. -/
def settingsExists (db : DB) (uid : String) : Bool :=
  db.settings.any fun s => s.user_id == uid

/-- The settings row inserted by
`INSERT INTO user_settings (user_id) VALUES ($1)`: every other column takes
its table default. -/
def newSettingsRow (uid : String) : SettingsRow :=
  { user_id := uid
    currency := none
    app_name := none
    unit_preferences := none
    updated_at := none }

/-- The create branch of `POST /api/user/init`: generate a fresh identifier
(the `uuidv4()` call is modelled by the `fresh` argument) and insert a
settings row keyed on it. -/
def createUser (db : DB) (fresh : String) : (String × Bool) × DB :=
  ((fresh, true), { db with settings := db.settings ++ [newSettingsRow fresh] })

/-- `POST /api/user/init`: when a `userId` is supplied and a matching
settings row exists, return it unchanged; otherwise create a new user. -/
def initUser (db : DB) (supplied : Option String) (fresh : String) :
    (String × Bool) × DB :=
  match supplied with
  | some uid => if settingsExists db uid then ((uid, false), db) else createUser db fresh
  | none => createUser db fresh

/-- The comparator of `ORDER BY created_at DESC`. -/
def createdDesc (a b : ItemRow) : Bool :=
  decide (b.created_at ≤ a.created_at)

/-- `GET /api/items/:userId`:
`SELECT * FROM items WHERE user_id = $1 ORDER BY created_at DESC`. -/
def listItems (db : DB) (uid : String) : List ItemRow :=
  (db.items.filter fun r => r.user_id == uid).mergeSort createdDesc

/-- `POST /api/items`: insert a row with a server-assigned serial id and
creation timestamp and return it (`RETURNING *`). -/
def addItem (db : DB) (uid : String) (f : ItemFields) (t : Nat) : ItemRow × DB :=
  let row : ItemRow :=
    { id := db.nextItemId
      user_id := uid
      name := f.name
      category := f.category
      quantity_value := f.quantity_value
      quantity_unit := f.quantity_unit
      buying_price := f.buying_price
      selling_price := f.selling_price
      description := f.description
      created_at := t
      updated_at := none }
  (row, { db with items := db.items ++ [row], nextItemId := db.nextItemId + 1 })

/-- The `WHERE id = $8 AND user_id = $9` condition of the update and delete
statements. -/
def matchesItem (iid : Nat) (uid : String) (r : ItemRow) : Bool :=
  r.id == iid && r.user_id == uid

/-- The `SET` clause of `PUT /api/items/:id`: overwrite the caller-supplied
columns and set `updated_at = NOW()`. -/
def applyUpdate (f : ItemFields) (t : Nat) (r : ItemRow) : ItemRow :=
  { r with
    name := f.name
    category := f.category
    quantity_value := f.quantity_value
    quantity_unit := f.quantity_unit
    buying_price := f.buying_price
    selling_price := f.selling_price
    description := f.description
    updated_at := some t }

/-- `PUT /api/items/:id`: `UPDATE items SET ... WHERE id = $8 AND
user_id = $9 RETURNING *`; the handler answers 404 exactly when the
returned row set is empty (`result.rows.length === 0`), modelled as
`none`. -/
def updateItem (db : DB) (iid : Nat) (uid : String) (f : ItemFields) (t : Nat) :
    Option ItemRow × DB :=
  let updated := db.items.map fun r =>
    if matchesItem iid uid r then applyUpdate f t r else r
  ((updated.filter (matchesItem iid uid)).head?, { db with items := updated })

/-- `DELETE /api/items/:id/:userId`: `DELETE FROM items WHERE id = $1 AND
user_id = $2 RETURNING *`; the boolean records whether any row was
removed (the handler answers 404 when `result.rows.length === 0`). -/
def deleteItem (db : DB) (iid : Nat) (uid : String) : Bool × DB :=
  (!(db.items.filter (matchesItem iid uid)).isEmpty,
    { db with items := db.items.filter fun r => !matchesItem iid uid r })

/-- `POST /api/goals`: `DELETE FROM goals WHERE user_id = $1`, then insert
the new goal row and return it. -/
def setGoal (db : DB) (uid : String) (f : GoalFields) (t : Nat) : GoalRow × DB :=
  let kept := db.goals.filter fun g => !(g.user_id == uid)
  let row : GoalRow :=
    { id := db.nextGoalId
      user_id := uid
      name := f.name
      target_revenue := f.target_revenue
      target_profit := f.target_profit
      target_items := f.target_items
      deadline := f.deadline
      description := f.description
      created_at := t }
  (row, { db with goals := kept ++ [row], nextGoalId := db.nextGoalId + 1 })

/-- The per-item profit `(selling_price - buying_price) * quantity_value`
attached to each item by the analytics handler. -/
def profit (r : ItemRow) : ℚ :=
  (r.selling_price - r.buying_price) * r.quantity_value

/-- The comparator `(a, b) => b.profit - a.profit` of the analytics sort:
`a` may stay before `b` exactly when `b.profit <= a.profit`. -/
def profitDesc (a b : ItemRow × ℚ) : Bool :=
  decide (b.2 ≤ a.2)

/-- The analytics payload of `GET /api/analytics/:userId`. -/
structure Analytics where
  totalInvestment : ℚ
  totalRevenue : ℚ
  totalProfit : ℚ
  profitMargin : ℚ
  totalItems : Nat
  topItems : List (ItemRow × ℚ)
deriving DecidableEq

/-- `parseFloat(x.toFixed(2))`: round to two decimal places, ties toward
the larger value. -/
def round2 (q : ℚ) : ℚ :=
  ((round (q * 100) : ℤ) : ℚ) / 100

/-- The items annotated with their profit, as built by the `.map` step of
the analytics handler. -/
def annotate (items : List ItemRow) : List (ItemRow × ℚ) :=
  items.map fun r => (r, profit r)

/-- `GET /api/analytics/:userId`, applied to the rows fetched for the user:
two `reduce` sums, the margin with its guard and rounding, and the
stable-sorted, 5-truncated `topItems`. -/
def computeAnalytics (items : List ItemRow) : Analytics :=
  let totalInvestment := items.foldl (fun s r => s + r.buying_price * r.quantity_value) 0
  let totalRevenue := items.foldl (fun s r => s + r.selling_price * r.quantity_value) 0
  let totalProfit := totalRevenue - totalInvestment
  let rawMargin := if totalInvestment > 0 then totalProfit / totalInvestment * 100 else 0
  { totalInvestment := totalInvestment
    totalRevenue := totalRevenue
    totalProfit := totalProfit
    profitMargin := round2 rawMargin
    totalItems := items.length
    topItems := ((annotate items).mergeSort profitDesc).take 5 }

/-- The ordering the specification demands of `topItems`: strictly greater
profit first, and on equal profits the item occurring earlier among the
fetched rows first (`[a.1, b.1] <+ items` states that `a.1` occurs before
`b.1` in `items`). -/
def rowLex (items : List ItemRow) (a b : ItemRow × ℚ) : Prop :=
  b.2 < a.2 ∨ (a.2 = b.2 ∧ [a.1, b.1].Sublist items)

/-- A sample item row used to instantiate the theorems on concrete data. -/
def sampleItem (n : Nat) (buy sell qty : ℚ) : ItemRow :=
  { id := n
    user_id := "u"
    name := "crop"
    category := "produce"
    quantity_value := qty
    quantity_unit := "kg"
    buying_price := buy
    selling_price := sell
    description := ""
    created_at := n
    updated_at := none }

/-- The two items of the worked analytics example in the specification:
(buy=2, sell=5, qty=3) and (buy=1, sell=1, qty=10). -/
def sampleItems : List ItemRow :=
  [sampleItem 1 2 5 3, sampleItem 2 1 1 10]

/-- Sample request fields for the item round-trip theorems. -/
def sampleFields : ItemFields :=
  { name := "crop"
    category := "produce"
    quantity_value := 3
    quantity_unit := "kg"
    buying_price := 2
    selling_price := 5
    description := "" }

/-- Sample goal fields. -/
def sampleGoal1 : GoalFields :=
  { name := "g1"
    target_revenue := 100
    target_profit := 10
    target_items := 5
    deadline := "2026-01-01"
    description := "" }

/-- A second sample goal. -/
def sampleGoal2 : GoalFields :=
  { name := "g2"
    target_revenue := 200
    target_profit := 20
    target_items := 7
    deadline := "2026-06-01"
    description := "" }

/-- A database holding exactly the two sample items for user `u`. -/
def sampleDB : DB :=
  { items := [sampleItem 1 2 5 3, sampleItem 2 1 1 10]
    goals := []
    settings := [newSettingsRow "u"]
    nextItemId := 3
    nextGoalId := 1 }

/-! ## Helper lemmas -/

/-- A left fold that adds `f` of each element equals the initial value plus
the sum of the mapped list. -/
lemma foldl_add_map (f : ItemRow → ℚ) (l : List ItemRow) (a : ℚ) :
    l.foldl (fun s r => s + f r) a = a + (l.map f).sum := by
  induction l generalizing a with
  | nil => simp
  | cons x xs ih => simp [List.foldl_cons, ih, add_assoc]

/-! ## Claims about the analytics handler -/

/-- Claim C1: `computeAnalytics` returns `totalInvestment` equal to the sum
over the items of the user of `buying_price * quantity_value`, `totalRevenue`
equal to the sum of `selling_price * quantity_value`, and `totalProfit`
equal to `totalRevenue - totalInvestment`; on the two items
(buy=2, sell=5, qty=3) and (buy=1, sell=1, qty=10) it returns
totalInvestment=16, totalRevenue=25, totalProfit=9. -/
theorem computeAnalytics_totals (items : List ItemRow) :
    (computeAnalytics items).totalInvestment
        = (items.map fun r => r.buying_price * r.quantity_value).sum ∧
    (computeAnalytics items).totalRevenue
        = (items.map fun r => r.selling_price * r.quantity_value).sum ∧
    (computeAnalytics items).totalProfit
        = (computeAnalytics items).totalRevenue
            - (computeAnalytics items).totalInvestment ∧
    (computeAnalytics sampleItems).totalInvestment = 16 ∧
    (computeAnalytics sampleItems).totalRevenue = 25 ∧
    (computeAnalytics sampleItems).totalProfit = 9 := by
  refine ⟨?_, ?_, rfl, ?_, ?_, ?_⟩
  · simpa [computeAnalytics] using foldl_add_map (fun r => r.buying_price * r.quantity_value) items 0
  · simpa [computeAnalytics] using foldl_add_map (fun r => r.selling_price * r.quantity_value) items 0
  · norm_num [computeAnalytics, sampleItems, sampleItem]
  · norm_num [computeAnalytics, sampleItems, sampleItem]
  · norm_num [computeAnalytics, sampleItems, sampleItem]

/-- Claim C8: `computeAnalytics` returns `profitMargin` equal to
`100 * totalProfit / totalInvestment` rounded to 2 decimal places whenever
`totalInvestment > 0`, and exactly 0 otherwise; on the worked example of
the specification the margin is 56.25. -/
theorem computeAnalytics_profitMargin (items : List ItemRow) :
    (0 < (computeAnalytics items).totalInvestment →
      (computeAnalytics items).profitMargin
        = round2 (100 * (computeAnalytics items).totalProfit
            / (computeAnalytics items).totalInvestment)) ∧
    (¬ 0 < (computeAnalytics items).totalInvestment →
      (computeAnalytics items).profitMargin = 0) ∧
    (computeAnalytics sampleItems).profitMargin = 225 / 4 := by
  refine ⟨?_, ?_, ?_⟩
  · intro hpos
    simp only [computeAnalytics] at hpos ⊢
    rw [if_pos hpos]
    congr 1
    rw [div_mul_eq_mul_div, mul_comm]
  · intro hneg
    simp only [computeAnalytics] at hneg ⊢
    rw [if_neg hneg]
    simp [round2]
  · norm_num [computeAnalytics, sampleItems, sampleItem, round2, round_eq]

/-- Witness for C8 at the worked example of the specification: the investment is
positive there and the margin equals the rounded ratio. -/
theorem computeAnalytics_profitMargin_witness :
    0 < (computeAnalytics sampleItems).totalInvestment ∧
    (computeAnalytics sampleItems).profitMargin
      = round2 (100 * (computeAnalytics sampleItems).totalProfit
          / (computeAnalytics sampleItems).totalInvestment) :=
  ⟨by norm_num [computeAnalytics, sampleItems, sampleItem],
    (computeAnalytics_profitMargin sampleItems).1
      (by norm_num [computeAnalytics, sampleItems, sampleItem])⟩

/-- The `created_at` comparator is transitive. -/
lemma createdDesc_trans : ∀ a b c : ItemRow,
    createdDesc a b = true → createdDesc b c = true → createdDesc a c = true := by
  intro a b c hab hbc
  simp only [createdDesc, decide_eq_true_eq] at *
  omega

/-- The `created_at` comparator is total. -/
lemma createdDesc_total : ∀ a b : ItemRow,
    (createdDesc a b || createdDesc b a) = true := by
  intro a b
  simp only [createdDesc, Bool.or_eq_true, decide_eq_true_eq]
  omega

/-- Claim C9: `listItems` returns exactly the items of the user (a permutation of
the rows of that user) ordered by creation time descending. -/
theorem listItems_spec (db : DB) (uid : String) :
    (listItems db uid).Perm (db.items.filter fun r => r.user_id == uid) ∧
    (listItems db uid).Pairwise (fun a b => b.created_at ≤ a.created_at) := by
  constructor
  · exact List.mergeSort_perm _ _
  · have h := List.sorted_mergeSort createdDesc_trans createdDesc_total
      (db.items.filter fun r => r.user_id == uid)
    refine List.Pairwise.imp ?_ h
    intro a b hab
    simpa [createdDesc] using hab

/-- Claim C3: `addItem` followed by `listItems` for the same user yields a
sequence containing the new item, with every caller-supplied field
unchanged (only the server-assigned id and timestamp differ), and every
other listed row was already in the store. -/
theorem addItem_listItems (db : DB) (uid : String) (f : ItemFields) (t : Nat) :
    ((addItem db uid f t).1.user_id = uid ∧
      (addItem db uid f t).1.name = f.name ∧
      (addItem db uid f t).1.category = f.category ∧
      (addItem db uid f t).1.quantity_value = f.quantity_value ∧
      (addItem db uid f t).1.quantity_unit = f.quantity_unit ∧
      (addItem db uid f t).1.buying_price = f.buying_price ∧
      (addItem db uid f t).1.selling_price = f.selling_price ∧
      (addItem db uid f t).1.description = f.description) ∧
    (addItem db uid f t).1 ∈ listItems (addItem db uid f t).2 uid ∧
    ∀ x ∈ listItems (addItem db uid f t).2 uid,
      x = (addItem db uid f t).1 ∨ x ∈ db.items := by
  refine ⟨⟨rfl, rfl, rfl, rfl, rfl, rfl, rfl, rfl⟩, ?_, ?_⟩
  · have hperm := (listItems_spec (addItem db uid f t).2 uid).1
    rw [hperm.mem_iff]
    simp [addItem, List.mem_filter]
  · intro x hx
    have hperm := (listItems_spec (addItem db uid f t).2 uid).1
    rw [hperm.mem_iff] at hx
    rw [List.mem_filter] at hx
    have hx2 := hx.1
    simp only [addItem, List.mem_append, List.mem_singleton] at hx2
    tauto

/-- Witness for C3: in the sample database, the row returned by a concrete
`addItem` call occurs in the subsequent `listItems` result. -/
theorem addItem_listItems_witness :
    (addItem sampleDB "u" sampleFields 7).1
      ∈ listItems (addItem sampleDB "u" sampleFields 7).2 "u" :=
  (addItem_listItems sampleDB "u" sampleFields 7).2.1

/-! ## Claims about user initialization and goals -/

/-- Claim C5: `initUser` returns a supplied identifier unchanged with
`created = false` and touches nothing when a settings row for it exists;
otherwise it returns the freshly generated identifier (the `uuidv4()`
value, modelled by the opaque `fresh` argument) with `created = true` and
inserts a settings row keyed on it, touching no other table. -/
theorem initUser_spec (db : DB) (supplied : Option String) (fresh : String) :
    (∀ uid, supplied = some uid → settingsExists db uid = true →
      initUser db supplied fresh = ((uid, false), db)) ∧
    ((supplied = none ∨
        ∃ uid, supplied = some uid ∧ settingsExists db uid = false) →
      (initUser db supplied fresh).1 = (fresh, true) ∧
      (initUser db supplied fresh).2.settings
        = db.settings ++ [newSettingsRow fresh] ∧
      (initUser db supplied fresh).2.items = db.items ∧
      (initUser db supplied fresh).2.goals = db.goals) := by
  constructor
  · intro uid hsup hex
    subst hsup
    simp [initUser, hex]
  · intro hcase
    rcases hcase with hnone | ⟨uid, hsup, hex⟩
    · subst hnone
      simp [initUser, createUser]
    · subst hsup
      simp [initUser, hex, createUser]

/-- Witness for C5: in the sample database the settings row for `u` exists,
so a concrete `initUser` call validates it and changes nothing. -/
theorem initUser_spec_witness :
    settingsExists sampleDB "u" = true ∧
    initUser sampleDB (some "u") "fresh-id" = (("u", false), sampleDB) :=
  ⟨by decide, (initUser_spec sampleDB (some "u") "fresh-id").1 "u" rfl (by decide)⟩

/-- Claim C10: a successful `setGoal` leaves the goal rows of every other user
unchanged and leaves the items and settings tables of every user
unchanged: both its statements are filtered to the goals of the calling user. -/
theorem setGoal_frame (db : DB) (u : String) (f : GoalFields) (t : Nat) :
    (setGoal db u f t).2.items = db.items ∧
    (setGoal db u f t).2.settings = db.settings ∧
    ∀ v, v ≠ u →
      ((setGoal db u f t).2.goals.filter fun g => g.user_id == v)
        = db.goals.filter fun g => g.user_id == v := by
  refine ⟨rfl, rfl, ?_⟩
  intro v hv
  simp only [setGoal, List.filter_append, List.filter_filter]
  have h1 : (List.filter (fun g => (g.user_id == v) && !(g.user_id == u)) db.goals)
      = db.goals.filter fun g => g.user_id == v := by
    apply List.filter_congr
    intro g _
    by_cases hg : g.user_id = v
    · simp [hg, hv]
    · simp [hg]
  have hb : (u == v) = false := beq_eq_false_iff_ne.mpr (Ne.symm hv)
  have h2 : (List.filter (fun g => g.user_id == v)
      [(⟨db.nextGoalId, u, f.name, f.target_revenue, f.target_profit,
          f.target_items, f.deadline, f.description, t⟩ : GoalRow)]) = [] := by
    simp [List.filter, hb]
  rw [h1, h2, List.append_nil]

/-- Witness for C10: a concrete `setGoal` call for user `u` leaves the goal
rows of user `v` unchanged. -/
theorem setGoal_frame_witness :
    ((setGoal sampleDB "u" sampleGoal1 3).2.goals.filter fun g => g.user_id == "v")
      = sampleDB.goals.filter fun g => g.user_id == "v" :=
  (setGoal_frame sampleDB "u" sampleGoal1 3).2.2 "v" (by decide)

/-- After any single `setGoal` call, the goal rows of the calling user consist of
exactly the row just inserted. -/
lemma setGoal_filter_self (db : DB) (u : String) (f : GoalFields) (t : Nat) :
    ((setGoal db u f t).2.goals.filter fun g => g.user_id == u)
      = [(setGoal db u f t).1] := by
  simp only [setGoal, List.filter_append, List.filter_filter]
  have h1 : (List.filter (fun g => (g.user_id == u) && !(g.user_id == u)) db.goals)
      = [] := by
    apply List.filter_eq_nil_iff.mpr
    intro g _
    by_cases hg : g.user_id = u <;> simp [hg]
  rw [h1]
  simp [List.filter]

/-- Claim C4: `setGoal` deletes the existing goal rows of the user before
inserting, so after two successive calls for the same user the store holds
exactly one goal row for that user, carrying the fields of the second call, and
any `at most one goal per user` invariant is preserved by each call. -/
theorem setGoal_replaces (db : DB) (u : String) (f1 f2 : GoalFields) (t1 t2 : Nat) :
    (((setGoal (setGoal db u f1 t1).2 u f2 t2).2.goals.filter
        fun g => g.user_id == u)
      = [(setGoal (setGoal db u f1 t1).2 u f2 t2).1]) ∧
    ((setGoal (setGoal db u f1 t1).2 u f2 t2).1.user_id = u ∧
      (setGoal (setGoal db u f1 t1).2 u f2 t2).1.name = f2.name ∧
      (setGoal (setGoal db u f1 t1).2 u f2 t2).1.target_revenue = f2.target_revenue ∧
      (setGoal (setGoal db u f1 t1).2 u f2 t2).1.target_profit = f2.target_profit ∧
      (setGoal (setGoal db u f1 t1).2 u f2 t2).1.target_items = f2.target_items ∧
      (setGoal (setGoal db u f1 t1).2 u f2 t2).1.deadline = f2.deadline ∧
      (setGoal (setGoal db u f1 t1).2 u f2 t2).1.description = f2.description) ∧
    ((∀ v, (db.goals.countP fun g => g.user_id == v) ≤ 1) →
      ∀ v, ((setGoal db u f1 t1).2.goals.countP fun g => g.user_id == v) ≤ 1) := by
  refine ⟨?_, ⟨rfl, rfl, rfl, rfl, rfl, rfl, rfl⟩, ?_⟩
  · exact setGoal_filter_self (setGoal db u f1 t1).2 u f2 t2
  · intro hinv v
    simp only [setGoal, List.countP_append]
    by_cases hv : v = u
    · subst hv
      have h1 : (List.countP (fun g => g.user_id == v)
          (db.goals.filter fun g => !(g.user_id == v))) = 0 := by
        rw [List.countP_filter]
        apply List.countP_eq_zero.mpr
        intro g _
        by_cases hg : g.user_id = v <;> simp [hg]
      rw [h1]
      simp [List.countP_cons]
    · have h1 : (List.countP (fun g => g.user_id == v)
          (db.goals.filter fun g => !(g.user_id == u)))
          ≤ db.goals.countP fun g => g.user_id == v :=
        List.Sublist.countP_le _ (List.filter_sublist _)
      have h2 : (List.countP (fun g => g.user_id == v)
          [(⟨db.nextGoalId, u, f1.name, f1.target_revenue, f1.target_profit,
              f1.target_items, f1.deadline, f1.description, t1⟩ : GoalRow)]) = 0 := by
        simp [List.countP_cons, Ne.symm, hv]
      rw [h2]
      have := hinv v
      omega

/-- Witness for C4: starting from the sample database (whose goals table is
empty, so every user holds at most one goal), a concrete `setGoal` call
preserves the at-most-one invariant for user `u`. -/
theorem setGoal_replaces_witness :
    ((setGoal sampleDB "u" sampleGoal1 3).2.goals.countP
        fun g => g.user_id == "u") ≤ 1 :=
  (setGoal_replaces sampleDB "u" sampleGoal1 sampleGoal2 3 4).2.2
    (by intro v; simp [sampleDB]) "u"

/-! ## Claims about item update and deletion -/

/-- The update clause does not change the columns of the `WHERE` condition. -/
lemma matchesItem_applyUpdate (iid : Nat) (uid : String) (f : ItemFields)
    (t : Nat) (r : ItemRow) :
    matchesItem iid uid (applyUpdate f t r) = matchesItem iid uid r := rfl

/-- The per-row effect of the update statement preserves the `WHERE`
condition. -/
lemma matchesItem_updated (iid : Nat) (uid : String) (f : ItemFields)
    (t : Nat) (r : ItemRow) :
    matchesItem iid uid (if matchesItem iid uid r then applyUpdate f t r else r)
      = matchesItem iid uid r := by
  by_cases h : matchesItem iid uid r = true
  · simp [h, matchesItem_applyUpdate]
  · simp [h]

/-- Claim C6: `updateItem` updates only the rows matching both `itemId` and
`userId`, setting the update timestamp on them; rows not matching both keep
their value and position; the handler signals NotFound as a zero-row result
(`none`) exactly when no row matches, and in that case the store is
unchanged. -/
theorem updateItem_spec (db : DB) (iid : Nat) (uid : String) (f : ItemFields)
    (t : Nat) :
    ((updateItem db iid uid f t).2.items.length = db.items.length) ∧
    (∀ (i : Nat) (r : ItemRow), db.items[i]? = some r →
      (matchesItem iid uid r = false →
        (updateItem db iid uid f t).2.items[i]? = some r) ∧
      (matchesItem iid uid r = true →
        (updateItem db iid uid f t).2.items[i]? = some (applyUpdate f t r) ∧
        (applyUpdate f t r).updated_at = some t)) ∧
    ((updateItem db iid uid f t).1 = none ↔
      ∀ r ∈ db.items, matchesItem iid uid r = false) ∧
    ((∀ r ∈ db.items, matchesItem iid uid r = false) →
      (updateItem db iid uid f t).2 = db) := by
  refine ⟨by simp [updateItem], ?_, ?_, ?_⟩
  · intro i r hir
    have hmap : (updateItem db iid uid f t).2.items[i]?
        = Option.map (fun r => if matchesItem iid uid r then applyUpdate f t r else r)
            db.items[i]? := by
      simp [updateItem, List.getElem?_map]
    rw [hir] at hmap
    constructor
    · intro hm
      rw [hmap]
      simp [hm]
    · intro hm
      refine ⟨?_, rfl⟩
      rw [hmap]
      simp [hm]
  · simp only [updateItem, List.head?_eq_none_iff, List.filter_eq_nil_iff]
    constructor
    · intro h r hr
      have := h _ (List.mem_map.mpr ⟨r, hr, rfl⟩)
      rw [matchesItem_updated] at this
      simpa using this
    · intro h a ha
      rw [List.mem_map] at ha
      obtain ⟨r, hr, rfl⟩ := ha
      rw [matchesItem_updated]
      simp [h r hr]
  · intro h
    simp only [updateItem]
    have hmap : db.items.map
        (fun r => if matchesItem iid uid r then applyUpdate f t r else r)
        = db.items := by
      have hcongr := List.map_congr_left (l := db.items)
        (f := fun r => if matchesItem iid uid r then applyUpdate f t r else r)
        (g := id) (by intro a ha; simp [h a ha])
      simpa using hcongr
    rw [hmap]

/-- Witness for C6: updating an id owned by a different user in the sample
database returns NotFound and leaves the store unchanged. -/
theorem updateItem_spec_witness :
    (updateItem sampleDB 1 "other" sampleFields 9).1 = none ∧
    (updateItem sampleDB 1 "other" sampleFields 9).2 = sampleDB :=
  ⟨(updateItem_spec sampleDB 1 "other" sampleFields 9).2.2.1.mpr (by decide),
    (updateItem_spec sampleDB 1 "other" sampleFields 9).2.2.2 (by decide)⟩

/-- Claim C7: `deleteItem` removes exactly the rows matching both ids,
returns whether a row was removed (NotFound, `false`, when none matched),
and a second delete of the same id returns NotFound and leaves the store
unchanged. -/
theorem deleteItem_spec (db : DB) (iid : Nat) (uid : String) :
    ((deleteItem db iid uid).1 = true ↔
      ∃ r ∈ db.items, matchesItem iid uid r = true) ∧
    ((deleteItem db iid uid).2.items.Sublist db.items) ∧
    (∀ r ∈ db.items, matchesItem iid uid r = false →
      r ∈ (deleteItem db iid uid).2.items) ∧
    (∀ r ∈ (deleteItem db iid uid).2.items, matchesItem iid uid r = false) ∧
    (deleteItem (deleteItem db iid uid).2 iid uid).1 = false ∧
    (deleteItem (deleteItem db iid uid).2 iid uid).2 = (deleteItem db iid uid).2 := by
  have hkept : ∀ r ∈ (deleteItem db iid uid).2.items,
      matchesItem iid uid r = false := by
    intro r hr
    simp only [deleteItem, List.mem_filter] at hr
    simpa using hr.2
  have hself : ((deleteItem db iid uid).2.items.filter
      fun r => !matchesItem iid uid r) = (deleteItem db iid uid).2.items := by
    apply List.filter_eq_self.mpr
    intro a ha
    simp [hkept a ha]
  refine ⟨?_, List.filter_sublist _, ?_, hkept, ?_, ?_⟩
  · simp [deleteItem, List.filter_eq_nil_iff]
  · intro r hr hm
    simp [deleteItem, List.mem_filter, hr, hm]
  · have hempty : (List.filter (matchesItem iid uid)
        (List.filter (fun r => !matchesItem iid uid r) db.items)) = [] := by
      rw [List.filter_filter]
      apply List.filter_eq_nil_iff.mpr
      intro a _
      by_cases h : matchesItem iid uid a = true <;> simp [h]
    simp only [deleteItem]
    rw [hempty]
    rfl
  · show ({ (deleteItem db iid uid).2 with
      items := (deleteItem db iid uid).2.items.filter
        fun r => !matchesItem iid uid r } : DB) = (deleteItem db iid uid).2
    rw [hself]

/-- Witness for C7: deleting item 1 of user `u` from the sample database
reports a removal; deleting an absent id reports NotFound. -/
theorem deleteItem_spec_witness :
    (deleteItem sampleDB 1 "u").1 = true ∧
    (deleteItem (deleteItem sampleDB 1 "u").2 1 "u").1 = false :=
  ⟨(deleteItem_spec sampleDB 1 "u").1.mpr
      ⟨sampleItem 1 2 5 3, by decide, by decide⟩,
    (deleteItem_spec sampleDB 1 "u").2.2.2.2.1⟩

/-! ## The topItems ranking -/

/-- The profit comparator is transitive. -/
lemma profitDesc_trans : ∀ a b c : ItemRow × ℚ,
    profitDesc a b = true → profitDesc b c = true → profitDesc a c = true := by
  intro a b c hab hbc
  simp only [profitDesc, decide_eq_true_eq] at *
  exact le_trans hbc hab

/-- The profit comparator is total. -/
lemma profitDesc_total : ∀ a b : ItemRow × ℚ,
    (profitDesc a b || profitDesc b a) = true := by
  intro a b
  simp only [profitDesc, Bool.or_eq_true, decide_eq_true_eq]
  exact le_total b.2 a.2

/-- Two elements of a list taken at increasing positions form a sublist. -/
lemma pair_sublist_getElem {α : Type} {l : List α} {i j : Nat}
    (hi : i < l.length) (hj : j < l.length) (hij : i < j) :
    [l[i], l[j]].Sublist l := by
  have h := @List.map_getElem_sublist _ l [⟨i, hi⟩, ⟨j, hj⟩]
  simp at h
  exact h (by simpa using hij)

/-- In a duplicate-free list, two elements cannot occur in both relative
orders. -/
lemma eq_of_pair_sublist_both {α : Type} {a b : α} {l : List α}
    (hnd : l.Nodup) (hab : [a, b].Sublist l) (hba : [b, a].Sublist l) :
    a = b := by
  induction l with
  | nil => cases hab
  | cons x xs ih =>
    rw [List.nodup_cons] at hnd
    cases hab with
    | cons _ hab2 =>
      cases hba with
      | cons _ hba2 => exact ih hnd.2 hab2 hba2
      | cons₂ _ hba2 =>
        exact absurd (hab2.subset (by simp)) hnd.1
    | cons₂ _ hab2 =>
      cases hba with
      | cons _ hba2 =>
        exact absurd (hba2.subset (by simp)) hnd.1
      | cons₂ _ hba2 => rfl

/-- Annotating distinct rows with their profits keeps them distinct. -/
lemma annotate_nodup {items : List ItemRow} (hnd : items.Nodup) :
    (annotate items).Nodup :=
  List.Nodup.map (fun _ _ h => congrArg Prod.fst h) hnd

/-- A two-element sublist of the annotated rows projects to a two-element
sublist of the rows themselves. -/
lemma annotate_pair_sublist {items : List ItemRow} {a b : ItemRow × ℚ}
    (h : [a, b].Sublist (annotate items)) : [a.1, b.1].Sublist items := by
  rw [annotate, List.sublist_map_iff] at h
  obtain ⟨l2, hl2, he⟩ := h
  rcases l2 with _ | ⟨x, _ | ⟨y, _ | ⟨z, l5⟩⟩⟩
  · simp at he
  · simp at he
  · simp only [List.map_cons, List.map_nil, List.cons.injEq, and_true] at he
    obtain ⟨ha, hb⟩ := he
    rw [ha, hb]
    simpa using hl2
  · simp at he

/-- The stable sort of the annotated rows is ordered by the lexicographic
specification order: strictly larger profit first, ties in original row
order. -/
lemma mergeSort_annotate_pairwise {items : List ItemRow} (hnd : items.Nodup) :
    ((annotate items).mergeSort profitDesc).Pairwise (rowLex items) := by
  set out := (annotate items).mergeSort profitDesc with hout
  have hperm : out.Perm (annotate items) := List.mergeSort_perm (annotate items) profitDesc
  have hwpnd : (annotate items).Nodup := annotate_nodup hnd
  have houtnd : out.Nodup := (hperm.nodup_iff).mpr hwpnd
  have hsorted : out.Pairwise (fun a b => profitDesc a b = true) :=
    List.sorted_mergeSort profitDesc_trans profitDesc_total (annotate items)
  rw [List.pairwise_iff_getElem]
  intro i j hi hj hij
  have hdesc : out[j].2 ≤ out[i].2 := by
    have := List.pairwise_iff_getElem.mp hsorted i j hi hj hij
    simpa [profitDesc] using this
  rcases lt_or_eq_of_le hdesc with hlt | heq
  · exact Or.inl hlt
  · refine Or.inr ⟨heq.symm, ?_⟩
    have hne : out[i] ≠ out[j] :=
      List.pairwise_iff_getElem.mp houtnd i j hi hj hij
    have hmem_i : out[i] ∈ annotate items := hperm.mem_iff.mp (List.getElem_mem hi)
    have hmem_j : out[j] ∈ annotate items := hperm.mem_iff.mp (List.getElem_mem hj)
    obtain ⟨p, hp, hpa⟩ := List.getElem_of_mem hmem_i
    obtain ⟨q, hq, hqb⟩ := List.getElem_of_mem hmem_j
    have hpq : p ≠ q := by
      intro h
      apply hne
      subst h
      rw [← hpa, ← hqb]
    rcases Nat.lt_or_ge p q with hpq2 | hpq2
    · have hsub : [out[i], out[j]].Sublist (annotate items) := by
        rw [← hpa, ← hqb]
        exact pair_sublist_getElem hp hq hpq2
      exact annotate_pair_sublist hsub
    · have hqp : q < p := by omega
      have hsub : [out[j], out[i]].Sublist (annotate items) := by
        rw [← hpa, ← hqb]
        exact pair_sublist_getElem hq hp hqp
      have hle : profitDesc out[j] out[i] = true := by
        simp [profitDesc, heq]
      have hstable : [out[j], out[i]].Sublist out :=
        List.pair_sublist_mergeSort profitDesc_trans profitDesc_total hle hsub
      have hsub2 : [out[i], out[j]].Sublist out :=
        pair_sublist_getElem hi hj hij
      exact absurd (eq_of_pair_sublist_both houtnd hsub2 hstable) hne

/-- Claim C2: for a duplicate-free row list, `topItems` has length 5 capped
by the number of items, is ordered by descending profit with ties in
original row order, annotates each listed item with its profit, and every
item left out ranks at or below every item listed (strictly below, or tied
with the listed item occurring earlier among the rows). -/
theorem computeAnalytics_topItems (items : List ItemRow) (hnd : items.Nodup) :
    ((computeAnalytics items).topItems.length = min 5 items.length) ∧
    ((computeAnalytics items).topItems.Pairwise (rowLex items)) ∧
    (∀ p ∈ (computeAnalytics items).topItems, p.1 ∈ items ∧ p.2 = profit p.1) ∧
    (∀ b ∈ items, (b, profit b) ∉ (computeAnalytics items).topItems →
      ∀ a ∈ (computeAnalytics items).topItems, rowLex items a (b, profit b)) := by
  have htop : (computeAnalytics items).topItems
      = ((annotate items).mergeSort profitDesc).take 5 := rfl
  have hperm := List.mergeSort_perm (annotate items) profitDesc
  have hmaster := mergeSort_annotate_pairwise hnd
  refine ⟨?_, ?_, ?_, ?_⟩
  · rw [htop, List.length_take, List.Perm.length_eq hperm, annotate, List.length_map]
  · rw [htop]
    exact List.Pairwise.sublist (List.take_sublist _ _) hmaster
  · intro p hp
    rw [htop] at hp
    have hp2 : p ∈ annotate items :=
      hperm.mem_iff.mp ((List.take_sublist _ _).subset hp)
    rw [annotate, List.mem_map] at hp2
    obtain ⟨r, hr, rfl⟩ := hp2
    exact ⟨hr, rfl⟩
  · intro b hb hnot a ha
    have hmaster2 := hmaster
    rw [← List.take_append_drop 5 ((annotate items).mergeSort profitDesc)] at hmaster2
    have hparts := List.pairwise_append.mp hmaster2
    have hbmem : (b, profit b) ∈ (annotate items).mergeSort profitDesc := by
      rw [List.Perm.mem_iff hperm, annotate, List.mem_map]
      exact ⟨b, hb, rfl⟩
    rw [← List.take_append_drop 5 ((annotate items).mergeSort profitDesc),
      List.mem_append] at hbmem
    rcases hbmem with hbtake | hbdrop
    · exact absurd hbtake hnot
    · exact hparts.2.2 a ha _ hbdrop

/-- Witness for C2 at the two-item example of the specification: the rows are
distinct and the ranking has length `min 5 2 = 2`. -/
theorem computeAnalytics_topItems_witness :
    sampleItems.Nodup ∧
    (computeAnalytics sampleItems).topItems.length = min 5 sampleItems.length :=
  ⟨by decide, (computeAnalytics_topItems sampleItems (by decide)).1⟩

end GDFarms
